import Mathlib

/-!
# Conversation & Message Orchestration — verification of the chat front end

Shallow embedding of the conversation/message orchestration layer of the
repository (`src/components/ChatInterface.tsx`, second revision;
`src/components/EnhancedChatInterface.tsx`; `src/lib/utils.ts`;
`src/services/api.ts`).  Strings are modelled as `List Char`; the JS regex
`/<reasoning>([\s\S]*?)<\/reasoning>/` (leftmost match, lazy inner) is
modelled by first-occurrence substring splitting; React component state is
modelled as an explicit record with the event handlers as state-transition
functions; asynchronous continuations (the `await` success/failure arms of
`handleSendMessage`) are separate transition functions so that interleavings
with other events can be expressed.
-/

namespace LitVerse

/-! ## Characters and trimming

`wsChar` covers the ASCII whitespace removed by JavaScript
`String.prototype.trim` (space, tab, LF, VT, FF, CR). -/

def wsChar (c : Char) : Bool :=
  c = ' ' || c = '\t' || c = '\n' || c = '\x0b' || c = '\x0c' || c = '\r'

/-- `String.prototype.trim`: drop whitespace from both ends. -/
def trimList (l : List Char) : List Char :=
  ((l.dropWhile wsChar).reverse.dropWhile wsChar).reverse

/-! ## First-occurrence substring splitting

`splitFirst pat l` returns `some (a, r)` when `l = a ++ pat ++ r` with the
occurrence of `pat` at position `a.length` being the leftmost one, and `none`
when `pat` does not occur in `l`.  This is the semantics of a JS regex match
on a fixed literal pattern. -/

def splitFirst (pat : List Char) (l : List Char) : Option (List Char × List Char) :=
  match l with
  | [] => if pat.isPrefixOf ([] : List Char) then some ([], []) else none
  | c :: cs =>
    if pat.isPrefixOf (c :: cs) then some ([], (c :: cs).drop pat.length)
    else
      match splitFirst pat cs with
      | some (a, r) => some (c :: a, r)
      | none => none

/-- `pat` occurs somewhere in `l`. -/
def occursIn (pat l : List Char) : Bool :=
  (splitFirst pat l).isSome

/-! ## The reasoning-block decoder

From `ChatInterface.tsx` (`loadMessages`, lines 276–294, and both branches of
`handleSendMessage`, lines 343–351 and 371–379):

```
const match = raw.match(/<reasoning>([\s\S]*?)<\/reasoning>/);
let reasoning: string | undefined;
let content = raw;
if (match) {
  reasoning = match[1].trim();
  content = raw.replace(/<reasoning>[\s\S]*?<\/reasoning>/, "").trim();
}
```

Note that in the no-match branch `content` is the raw string, not trimmed.
The JS regex matches iff some occurrence of `<reasoning>` is followed by an
occurrence of `</reasoning>`; because any end marker lying after a later
start marker also lies after the first start marker, the leftmost match
always begins at the first occurrence of `<reasoning>` and ends at the first
occurrence of `</reasoning>` after it. -/

def startMarker : List Char := "<reasoning>".toList

def endMarker : List Char := "</reasoning>".toList

/-- `decode raw = (visibleContent, reasoning)`. -/
def decode (raw : List Char) : List Char × Option (List Char) :=
  match splitFirst startMarker raw with
  | none => (raw, none)
  | some (a, r) =>
    match splitFirst endMarker r with
    | none => (raw, none)
    | some (i, s) => (trimList (a ++ s), some (trimList i))

/-! ## Data model

From the `Message`/`Conversation` interfaces of `ChatInterface.tsx` and
`src/services/api.ts`.  Timestamps are not modelled (no claim depends on
them); numeric ids arriving from the API are stringified where the component
mixes them into its `string | number` id field. -/

inductive Role where
  | user
  | assistant
deriving DecidableEq, Repr

/-- A message as held in component state (`interface Message`). -/
structure Msg where
  id : String
  role : Role
  content : List Char
  reasoning : Option (List Char)
  source_reference : Option String
deriving DecidableEq, Repr

/-- A conversation as returned by the REST API (`interface Conversation`). -/
structure Conversation where
  id : Nat
  title : Option String
  library_id : Nat
deriving DecidableEq, Repr

/-- A message as returned by the REST API (`interface Message` in
`services/api.ts`). -/
structure ApiMessage where
  id : Nat
  role : Role
  content : List Char
  source_reference : Option String
deriving DecidableEq, Repr

/-- The component state of `ChatInterface` (second revision): the `useState`
hooks `messages`, `inputMessage`, `loading`, `conversations`,
`activeConversation`, `resumePending`, plus the list of toast notifications
raised so far. -/
structure ChatState where
  messages : List Msg
  inputMessage : List Char
  loading : Bool
  conversations : List Conversation
  activeConversation : Option Conversation
  resumePending : Bool
  toasts : List String
deriving DecidableEq, Repr

/-- The synthetic greeting seeded whenever no conversation is active. -/
def greetingMsg : Msg :=
  { id := "1"
    role := .assistant
    content := ("Hello! I\x27m your AI reading assistant. Ask me anything " ++
      "about your uploaded PDFs and I\x27ll help you find the information " ++
      "you need.").toList
    reasoning := none
    source_reference := none }

/-- The fixed apology text appended on a failed send. -/
def apologyText : String :=
  "Sorry, I encountered an error processing your request. Please try again."

/-- The synthetic assistant message appended by the `catch` arm of
`handleSendMessage`. -/
def apologyMessage (now : Nat) : Msg :=
  { id := toString now ++ "-error"
    role := .assistant
    content := apologyText.toList
    reasoning := none
    source_reference := none }

/-- The optimistic user message (`id: Date.now().toString()`). -/
def mkUserMsg (now : Nat) (content : List Char) : Msg :=
  { id := toString now
    role := .user
    content := content
    reasoning := none
    source_reference := none }

/-- Assistant message built from an API reply: the raw content is run
through the reasoning decoder (`handleSendMessage`, lines 343–359 and
371–387). -/
def aiMessageOf (resp : ApiMessage) : Msg :=
  let d := decode resp.content
  { id := toString resp.id
    role := .assistant
    content := d.1
    reasoning := d.2
    source_reference := resp.source_reference }

/-- `loadMessages` (lines 266–303): map every stored message through the
reasoning decoder. -/
def formatMessages (l : List ApiMessage) : List Msg :=
  l.map fun m =>
    let d := decode m.content
    { id := toString m.id
      role := m.role
      content := d.1
      reasoning := d.2
      source_reference := m.source_reference }

/-! ## Session lifecycle (`ChatInterface`, second revision)

`useEffect[activeConversation]` (lines 216–233): when a conversation is
active, only `resumePending` is raised; when none is active, the greeting is
re-seeded.  It runs after every change of `activeConversation`. -/

def activeConversationEffect (s : ChatState) : ChatState :=
  match s.activeConversation with
  | some _ => { s with resumePending := true }
  | none => { s with resumePending := false, messages := [greetingMsg] }

/-- Component state right after mount with no conversation selected: the
effect has seeded the greeting. -/
def initialState : ChatState :=
  activeConversationEffect
    { messages := []
      inputMessage := []
      loading := false
      conversations := []
      activeConversation := none
      resumePending := false
      toasts := [] }

/-- `selectConversation` (lines 423–425) followed by the
`useEffect[activeConversation]` reaction. -/
def selectConversation (conv : Conversation) (s : ChatState) : ChatState :=
  activeConversationEffect { s with activeConversation := some conv }

/-- `startNewConversation` (lines 410–421), including the effect reaction to
the cleared active conversation. -/
def startNewConversation (s : ChatState) : ChatState :=
  activeConversationEffect
    { s with activeConversation := none, messages := [greetingMsg] }

/-- `handleResume` (lines 471–474): clear the pending-resume flag and run
`loadMessages`, whose success replaces `messages` with the decoded fetched
history (`loading` ends `false` via the `finally`). -/
def handleResume (fetched : List ApiMessage) (s : ChatState) : ChatState :=
  { s with resumePending := false
           messages := formatMessages fetched
           loading := false }

/-- `deleteConversation` (lines 427–445), success path: the server delete
succeeded, a success toast is raised, `startNewConversation` runs iff the
deleted id is the active one, and the refreshed server list equals the
previous list without the deleted conversation. -/
def deleteConversationSuccess (cid : Nat) (s : ChatState) : ChatState :=
  let s1 := { s with toasts := s.toasts ++ ["Conversation deleted successfully"] }
  let s2 := if s1.activeConversation.any (fun c => c.id = cid)
            then startNewConversation s1 else s1
  { s2 with conversations := s2.conversations.filter (fun c => c.id ≠ cid) }

/-! ## Message exchange (`handleSendMessage`, lines 305–408)

The handler is split at its `await` points: `attemptSend` is the synchronous
part up to and including the optimistic append (guarded by the input and
send button being disabled while `loading` is true), `onSendSuccess` is the
success continuation for an existing conversation, `onSendFailure` is the
`catch`/`finally` arm.  The new-conversation flow is modelled whole by
`sendMessageNewConversation`, which also records the backend calls it
issues. -/

/-- Synchronous prefix of `handleSendMessage`: the blank-input guard, the
missing-library guard, then the optimistic append, input reset and
`setLoading(true)`. -/
def handleSendBegin (selectedLibrary : Option Nat) (now : Nat)
    (s : ChatState) : ChatState :=
  if trimList s.inputMessage = [] then s
  else
    match selectedLibrary with
    | none => { s with toasts := s.toasts ++ ["Please select a library first"] }
    | some _ =>
      { s with messages := s.messages ++ [mkUserMsg now s.inputMessage]
               inputMessage := []
               loading := true }

/-- A user-initiated send: the input field and the send button both carry
`disabled={loading}` (the button additionally `!inputMessage.trim()`), so
the handler can only fire while no send is in flight. -/
def attemptSend (selectedLibrary : Option Nat) (now : Nat)
    (s : ChatState) : ChatState :=
  if s.loading then s else handleSendBegin selectedLibrary now s

/-- Success continuation for a send in an existing conversation (lines
363–389): decode the reply, append it, `setLoading(false)`.  The state it
runs against is whatever the component state is when the response arrives;
nothing is compared against the conversation id captured at send time. -/
def onSendSuccess (s : ChatState) (resp : ApiMessage) : ChatState :=
  { s with messages := s.messages ++ [aiMessageOf resp], loading := false }

/-- Failure continuation (lines 390–407): error toast, one synthetic
assistant apology message, `setLoading(false)`. -/
def onSendFailure (now : Nat) (s : ChatState) : ChatState :=
  { s with toasts := s.toasts ++ ["Failed to send message"]
           messages := s.messages ++ [apologyMessage now]
           loading := false }

/-- The early-return guard of `EnhancedChatInterface.handleSendMessage`
(line 146): `if (!inputMessage.trim() || loading) return;`. -/
def enhancedSendGuard (inputMessage : List Char) (loading : Bool) : Bool :=
  (trimList inputMessage).isEmpty || loading

/-- A backend `POST /chat/{conversationId}` call issued by the component. -/
structure ChatCall where
  conversationId : Nat
  content : List Char
deriving DecidableEq, Repr

/-- A backend `POST /conversations/{libraryId}` call issued by the
component. -/
structure CreateCall where
  libraryId : Nat
  title : Option String
  documentId : Option Nat
deriving DecidableEq, Repr

/-- The no-active-conversation branch of `handleSendMessage` (lines
305–362), run to completion on the success path, together with the trace of
backend calls it issues.  `newConv` is the conversation returned by
`ChatAPI.createConversation`; `resp2` is the reply to the second
`ChatAPI.sendMessage` call — the reply `_resp1` to the first call is
discarded by the component. -/
def sendMessageNewConversation (libId : Nat) (docId : Option Nat) (now : Nat)
    (newConv : Conversation) (_resp1 resp2 : ApiMessage) (s : ChatState) :
    ChatState × List CreateCall × List ChatCall :=
  if trimList s.inputMessage = [] then (s, [], [])
  else
    let content := s.inputMessage
    let s1 := { s with messages := s.messages ++ [mkUserMsg now content]
                       inputMessage := []
                       loading := true }
    -- `setActiveConversation(newConversation)` plus the effect reaction
    let s2 := activeConversationEffect { s1 with activeConversation := some newConv }
    -- first `ChatAPI.sendMessage(newConversation.id, inputMessage)`:
    -- response discarded; second one: decoded into the assistant message
    let s3 := { s2 with messages := s2.messages ++ [aiMessageOf resp2]
                        loading := false }
    (s3, [⟨libId, none, docId⟩], [⟨newConv.id, content⟩, ⟨newConv.id, content⟩])

/-! ## Transport error handling (`handleApiResponse`, `src/lib/utils.ts`
lines 13–21)

```
if (!response.ok) {
  const errorData = await response.json().catch(() => ({}));
  const errorMessage =
    errorData.detail || response.statusText || "Something went wrong";
  throw new Error(errorMessage);
}
```

`jsonDetail` is the `detail` field of the parsed body: `none` when the body
failed to parse or has no such field (both land on the `{}` fallback /
`undefined`, which are falsy). -/

structure ApiResponse where
  ok : Bool
  status : Nat
  statusText : String
  jsonDetail : Option String
deriving DecidableEq, Repr

/-- JavaScript `||` on strings: empty is falsy. -/
def jsOrElse (a b : String) : String :=
  if a = "" then b else a

/-- `handleApiResponse`, with `Except.error msg` standing for
`throw new Error(msg)`. -/
def handleApiResponse (r : ApiResponse) : Except String Unit :=
  if r.ok then .ok ()
  else .error (jsOrElse (r.jsonDetail.getD "")
    (jsOrElse r.statusText "Something went wrong"))

/-! ## Concrete fixtures -/

def conv1 : Conversation := ⟨1, some "First", 3⟩

def conv2 : Conversation := ⟨2, some "Second", 3⟩

def newConvFixture : Conversation := ⟨7, none, 3⟩

/-- Reply to the first (discarded) `ChatAPI.sendMessage` call. -/
def discardedReply : ApiMessage :=
  ⟨20, .assistant, "first reply".toList, none⟩

/-- Reply carrying a reasoning block, as in the spec scenario. -/
def usedReply : ApiMessage :=
  ⟨21, .assistant,
    "<reasoning>It discusses X</reasoning>Chapter 2 covers X.".toList,
    some "doc.pdf p.12"⟩

/-- Fresh component state with a typed but unsent message. -/
def helloState : ChatState :=
  { initialState with inputMessage := "hello".toList }

/-- A send in flight for `conv1`, user message optimistically appended. -/
def inFlightState : ChatState :=
  { messages := [greetingMsg, mkUserMsg 5 "question about conv1".toList]
    inputMessage := []
    loading := true
    conversations := [conv1, conv2]
    activeConversation := some conv1
    resumePending := false
    toasts := [] }

/-- Idle state with a loaded history list and `conv1` active. -/
def historyState : ChatState :=
  { messages := [greetingMsg]
    inputMessage := []
    loading := false
    conversations := [conv1, conv2]
    activeConversation := some conv1
    resumePending := false
    toasts := [] }

/-- HTTP 500 response with body `{"detail":"LLM unavailable"}`. -/
def resp500 : ApiResponse :=
  ⟨false, 500, "Internal Server Error", some "LLM unavailable"⟩

/-- Same failure body and status line under a different status code. -/
def resp404 : ApiResponse :=
  ⟨false, 404, "Internal Server Error", some "LLM unavailable"⟩

/-! ## Basic lemmas about `splitFirst` -/

theorem isPrefixOf_iff_exists (p l : List Char) :
    p.isPrefixOf l = true ↔ ∃ t, l = p ++ t := by
  induction p generalizing l with
  | nil => simp [List.isPrefixOf]
  | cons x xs ih =>
    cases l with
    | nil => simp [List.isPrefixOf]
    | cons y ys =>
      simp only [List.isPrefixOf, Bool.and_eq_true, beq_iff_eq, ih,
        List.cons_append, List.cons.injEq]
      constructor
      · rintro ⟨hxy, t, ht⟩; exact ⟨t, hxy.symm, ht⟩
      · rintro ⟨t, hxy, ht⟩; exact ⟨hxy.symm, t, ht⟩

theorem splitFirst_sound (pat : List Char) :
    ∀ l a r, splitFirst pat l = some (a, r) → l = a ++ pat ++ r := by
  intro l
  induction l with
  | nil =>
    intro a r h
    by_cases hp : pat.isPrefixOf ([] : List Char)
    · simp only [splitFirst, if_pos hp, Option.some.injEq, Prod.mk.injEq] at h
      obtain ⟨t, ht⟩ := (isPrefixOf_iff_exists pat []).mp hp
      rcases List.append_eq_nil.mp ht.symm with ⟨hpat, htnil⟩
      simp [← h.1, ← h.2, hpat]
    · simp only [splitFirst, if_neg hp] at h
      exact absurd h (by simp)
  | cons c cs ih =>
    intro a r h
    by_cases hp : pat.isPrefixOf (c :: cs)
    · simp only [splitFirst, if_pos hp, Option.some.injEq, Prod.mk.injEq] at h
      obtain ⟨t, ht⟩ := (isPrefixOf_iff_exists pat (c :: cs)).mp hp
      have hdrop : (c :: cs).drop pat.length = t := by
        rw [ht, List.drop_left]
      rw [← h.1, ← h.2, hdrop, List.nil_append, ht]
    · simp only [splitFirst, if_neg hp] at h
      cases hrec : splitFirst pat cs with
      | none => rw [hrec] at h; exact absurd h (by simp)
      | some p =>
        obtain ⟨a', r'⟩ := p
        rw [hrec] at h
        simp only [Option.some.injEq, Prod.mk.injEq] at h
        have := ih a' r' hrec
        rw [← h.1, ← h.2, this]
        simp

/-- If `pat` does not occur in `A` and the head character of `pat` occurs in
`pat` only at position `0` (true of both reasoning markers, whose only `<` is
the first character), then the leftmost occurrence of `pat` in
`A ++ pat ++ R` is the explicit one: `splitFirst` splits exactly there. -/
theorem splitFirst_append (pat R : List Char) (hne : pat ≠ [])
    (hu : ∀ n, n < pat.length → 0 < n → (pat.drop n).head? ≠ pat.head?) :
    ∀ A, occursIn pat A = false → splitFirst pat (A ++ (pat ++ R)) = some (A, R) := by
  intro A
  induction A with
  | nil =>
    intro _
    have hpre : pat.isPrefixOf (pat ++ R) = true :=
      (isPrefixOf_iff_exists _ _).mpr ⟨R, rfl⟩
    obtain ⟨p, ps, hpat⟩ := List.exists_cons_of_ne_nil hne
    subst hpat
    rw [List.nil_append]
    show splitFirst (p :: ps) (p :: (ps ++ R)) = some ([], R)
    simp only [splitFirst]
    rw [← List.cons_append, if_pos hpre, List.drop_left]
  | cons a A' ih =>
    intro hA
    have hsplit : splitFirst pat (a :: A') = none := by
      cases h : splitFirst pat (a :: A') with
      | none => rfl
      | some p => rw [occursIn, h] at hA; simp at hA
    have hA' : occursIn pat A' = false := by
      cases h : splitFirst pat A' with
      | none => rw [occursIn, h]; rfl
      | some p =>
        obtain ⟨a', r'⟩ := p
        by_cases hp : pat.isPrefixOf (a :: A') = true
        · simp only [splitFirst, if_pos hp] at hsplit
          exact absurd hsplit (by simp)
        · simp only [splitFirst, if_neg hp, h] at hsplit
          exact absurd hsplit (by simp)
    by_cases hp : pat.isPrefixOf ((a :: A') ++ (pat ++ R)) = true
    · exfalso
      obtain ⟨X, hX⟩ := (isPrefixOf_iff_exists _ _).mp hp
      by_cases hlen : pat.length ≤ (a :: A').length
      · -- `pat` would be a prefix of `a :: A'`, contradicting `hA`
        have htake : ((a :: A') ++ (pat ++ R)).take pat.length
            = (a :: A').take pat.length := by
          rw [List.take_append_eq_append_take, Nat.sub_eq_zero_of_le hlen,
            List.take_zero, List.append_nil]
        have hpatA : pat = (a :: A').take pat.length := by
          conv_lhs => rw [← List.take_left pat X]
          rw [← hX, htake]
        have hpreA : pat.isPrefixOf (a :: A') = true := by
          refine (isPrefixOf_iff_exists _ _).mpr ⟨(a :: A').drop pat.length, ?_⟩
          conv_lhs => rw [← List.take_append_drop pat.length (a :: A')]
          rw [← hpatA]
        simp only [splitFirst, if_pos hpreA] at hsplit
        exact absurd hsplit (by simp)
      · -- crossing occurrence: forces `pat`'s head to repeat inside `pat`
        push_neg at hlen
        have hAtake : ((a :: A') ++ (pat ++ R)).take (a :: A').length = a :: A' :=
          List.take_left _ _
        have hAeq : a :: A' = pat.take (a :: A').length := by
          rw [hX, List.take_append_eq_append_take,
            Nat.sub_eq_zero_of_le (Nat.le_of_lt hlen), List.take_zero,
            List.append_nil] at hAtake
          exact hAtake.symm
        have hpatsplit : pat = (a :: A') ++ pat.drop (a :: A').length := by
          conv_lhs => rw [← List.take_append_drop (a :: A').length pat]
          rw [← hAeq]
        have hcancel : pat ++ R = pat.drop (a :: A').length ++ X := by
          have h1 : (a :: A') ++ (pat ++ R)
              = (a :: A') ++ (pat.drop (a :: A').length ++ X) := by
            rw [hX]
            conv_lhs => rw [hpatsplit]
            rw [List.append_assoc]
          exact List.append_cancel_left h1
        have hBne : pat.drop (a :: A').length ≠ [] := by
          refine List.length_pos.mp ?_
          rw [List.length_drop]
          omega
        obtain ⟨p, ps, hpat⟩ := List.exists_cons_of_ne_nil hne
        obtain ⟨b, bs, hB⟩ := List.exists_cons_of_ne_nil hBne
        have hpb : p = b := by
          rw [hB, hpat] at hcancel
          simpa using congrArg List.head? hcancel
        have hcontr := hu (a :: A').length hlen (by simp)
        rw [hB, hpat] at hcontr
        simp [hpb] at hcontr
    · simp only [splitFirst, List.append_eq]
      rw [List.cons_append] at hp
      rw [if_neg hp, ih hA']

theorem startMarker_head_unique :
    ∀ n, n < startMarker.length → 0 < n →
      (startMarker.drop n).head? ≠ startMarker.head? := by decide

theorem endMarker_head_unique :
    ∀ n, n < endMarker.length → 0 < n →
      (endMarker.drop n).head? ≠ endMarker.head? := by decide

/-- Evaluation of `decode` on a string with an explicit reasoning block: the
block found is the leftmost one. -/
theorem decode_block (A I S : List Char)
    (hA : occursIn startMarker A = false)
    (hI : occursIn endMarker I = false) :
    decode (A ++ startMarker ++ I ++ endMarker ++ S)
      = (trimList (A ++ S), some (trimList I)) := by
  have h1 : splitFirst startMarker (A ++ (startMarker ++ (I ++ (endMarker ++ S))))
      = some (A, I ++ (endMarker ++ S)) :=
    splitFirst_append startMarker (I ++ (endMarker ++ S)) (by decide)
      startMarker_head_unique A hA
  have h2 : splitFirst endMarker (I ++ (endMarker ++ S)) = some (I, S) :=
    splitFirst_append endMarker S (by decide) endMarker_head_unique I hI
  have hassoc : A ++ startMarker ++ I ++ endMarker ++ S
      = A ++ (startMarker ++ (I ++ (endMarker ++ S))) := by
    simp [List.append_assoc]
  rw [hassoc]
  simp only [decode, h1, h2]

/-! ## Trimming preserves interior segments -/

theorem dropWhile_ws_append (P X : List Char) (b : Char)
    (hX : X.head? = some b) (hb : wsChar b = false) :
    (P ++ X).dropWhile wsChar = P.dropWhile wsChar ++ X := by
  induction P with
  | nil =>
    cases X with
    | nil => simp at hX
    | cons x xs =>
      have hxb : x = b := by simpa using hX
      subst hxb
      simp [List.dropWhile_cons, hb]
  | cons p P' ih =>
    by_cases hws : wsChar p = true
    · simp [List.dropWhile_cons, hws, ih]
    · simp [List.dropWhile_cons, hws]

/-- A segment whose first and last characters are not whitespace survives
`trimList` verbatim: trimming only shortens the outer parts. -/
theorem trimList_keeps_middle (P B Q : List Char) (b1 b2 : Char)
    (h1 : B.head? = some b1) (hb1 : wsChar b1 = false)
    (h2 : B.reverse.head? = some b2) (hb2 : wsChar b2 = false) :
    ∃ Pp Qp, trimList (P ++ (B ++ Q)) = Pp ++ (B ++ Qp) := by
  refine ⟨P.dropWhile wsChar, (Q.reverse.dropWhile wsChar).reverse, ?_⟩
  have hBne : B ≠ [] := by
    intro hc; rw [hc] at h1; simp at h1
  have hmid : (B.reverse ++ (P.dropWhile wsChar).reverse).head? = some b2 := by
    obtain ⟨y, ys, hy⟩ := List.exists_cons_of_ne_nil
      (fun hc => hBne (by simpa using congrArg List.reverse hc) : B.reverse ≠ [])
    rw [hy]
    rw [hy] at h2
    simpa using h2
  unfold trimList
  rw [dropWhile_ws_append P (B ++ Q) b1 (by
    obtain ⟨x, xs, hx⟩ := List.exists_cons_of_ne_nil hBne
    rw [hx]; rw [hx] at h1; simpa using h1) hb1]
  have hrev : (P.dropWhile wsChar ++ (B ++ Q)).reverse
      = Q.reverse ++ (B.reverse ++ (P.dropWhile wsChar).reverse) := by
    simp [List.reverse_append, List.append_assoc]
  rw [hrev, dropWhile_ws_append _ _ b2 hmid hb2]
  simp [List.reverse_append, List.append_assoc]

/-- `decode` on a string with no start marker followed by an end marker: the
raw text passes through untouched (not even trimmed) and `reasoning` is
absent. -/
theorem decode_no_block (raw : List Char)
    (h : ¬ ∃ A I S, raw = A ++ startMarker ++ I ++ endMarker ++ S) :
    decode raw = (raw, none) := by
  cases h1 : splitFirst startMarker raw with
  | none => simp [decode, h1]
  | some p =>
    obtain ⟨a, r⟩ := p
    cases h2 : splitFirst endMarker r with
    | none => simp [decode, h1, h2]
    | some q =>
      obtain ⟨i, s⟩ := q
      exfalso
      apply h
      have e1 := splitFirst_sound _ _ _ _ h1
      have e2 := splitFirst_sound _ _ _ _ h2
      refine ⟨a, i, s, ?_⟩
      rw [e1, e2]
      simp [List.append_assoc]

/-! ## Claims -/

/-- C1: sending with non-blank text and a selected library while no
conversation is active creates exactly one new Conversation and appends
exactly two messages (user, then assistant) — that part holds — but the
claim that the user's content is submitted to the backend exactly once is
violated: the component issues two identical `POST /chat/{id}` calls (the
comment on the first call says it merely "adds the user message", yet the
endpoint is the assistant-reply endpoint and its reply is discarded).  This
theorem evaluates the trace at the failing input "hello". -/
theorem c1_double_submission :
    (sendMessageNewConversation 3 none 100 newConvFixture discardedReply
        usedReply helloState).2.2
      = [⟨7, "hello".toList⟩, ⟨7, "hello".toList⟩]
    ∧ (sendMessageNewConversation 3 none 100 newConvFixture discardedReply
        usedReply helloState).2.1
      = [⟨3, none, none⟩]
    ∧ (sendMessageNewConversation 3 none 100 newConvFixture discardedReply
        usedReply helloState).1.messages
      = initialState.messages
        ++ [mkUserMsg 100 "hello".toList, aiMessageOf usedReply] := by
  decide

/-- C2: for a raw assistant content string containing exactly one
well-formed reasoning block, `decode` returns the trimmed inner text as
`reasoning` and the trimmed remainder with the block removed as
`visibleContent`. -/
theorem c2_decode_single_block (A I S : List Char)
    (hA1 : occursIn startMarker A = false) (_hA2 : occursIn endMarker A = false)
    (_hI1 : occursIn startMarker I = false) (hI2 : occursIn endMarker I = false)
    (_hS1 : occursIn startMarker S = false) (_hS2 : occursIn endMarker S = false) :
    decode (A ++ startMarker ++ I ++ endMarker ++ S)
      = (trimList (A ++ S), some (trimList I)) :=
  decode_block A I S hA1 hI2

theorem c2_decode_single_block_witness :
    decode ("Intro ".toList ++ startMarker ++ " It discusses X ".toList
        ++ endMarker ++ " Chapter 2 covers X.".toList)
      = (trimList ("Intro ".toList ++ " Chapter 2 covers X.".toList),
         some (trimList " It discusses X ".toList)) :=
  c2_decode_single_block _ _ _ (by decide) (by decide) (by decide)
    (by decide) (by decide) (by decide)

/-- C3, counterexample to the claim as stated: on input with no markers the
code returns the input unchanged, not trimmed, so `visibleContent` differs
from the trimmed input on `"  hi  "`. -/
theorem c3_counterexample :
    (decode "  hi  ".toList).1 ≠ trimList "  hi  ".toList := by decide

/-- C3, amended: for every string containing no matched reasoning marker
pair (in particular with an unmatched start marker), `decode` returns
`reasoning = none` and `visibleContent` equal to the input unchanged — the
identity, with no trimming — and, being a total function, never throws. -/
theorem c3_no_marker_identity (raw : List Char)
    (h : ¬ ∃ A I S, raw = A ++ startMarker ++ I ++ endMarker ++ S) :
    decode raw = (raw, none) :=
  decode_no_block raw h

theorem occursIn_append_middle (pat : List Char) :
    ∀ X Y, occursIn pat (X ++ (pat ++ Y)) = true := by
  intro X Y
  induction X with
  | nil =>
    simp only [List.nil_append]
    cases hpy : pat ++ Y with
    | nil =>
      rcases List.append_eq_nil.mp hpy with ⟨h1, _⟩
      unfold occursIn splitFirst
      simp [h1, List.isPrefixOf]
    | cons c cs =>
      have hpre : pat.isPrefixOf (c :: cs) = true := by
        rw [← hpy]; exact (isPrefixOf_iff_exists _ _).mpr ⟨Y, rfl⟩
      unfold occursIn splitFirst
      simp [hpre]
  | cons x xs ih =>
    rw [List.cons_append]
    unfold occursIn splitFirst
    by_cases hp : pat.isPrefixOf (x :: (xs ++ (pat ++ Y))) = true
    · simp [hp]
    · rw [if_neg hp]
      unfold occursIn at ih
      cases hs : splitFirst pat (xs ++ (pat ++ Y)) with
      | none => rw [hs] at ih; simp at ih
      | some p => obtain ⟨a, r⟩ := p; simp

theorem c3_no_marker_identity_witness :
    decode "  plain <reasoning> text  ".toList
      = ("  plain <reasoning> text  ".toList, none) :=
  c3_no_marker_identity _ (by
    rintro ⟨A, I, S, h⟩
    have hocc : occursIn endMarker "  plain <reasoning> text  ".toList
        = false := by decide
    have hmid : occursIn endMarker
        (A ++ startMarker ++ I ++ endMarker ++ S) = true := by
      have := occursIn_append_middle endMarker (A ++ startMarker ++ I) S
      simpa [List.append_assoc] using this
    rw [← h, hocc] at hmid
    exact Bool.false_ne_true hmid)

/-- C4, counterexample to the claim as stated: selecting a conversation from
history leaves the previously shown messages (here the greeting) in place —
`messages` is not cleared, so the pending-resume state does not have an
empty message list. -/
theorem c4_counterexample :
    (selectConversation conv1 initialState).resumePending = true
    ∧ (selectConversation conv1 initialState).messages ≠ [] := by decide

/-- C4, amended: selecting a conversation from history always raises
`resumePending` and leaves `messages` unchanged (they are not cleared);
confirming resume is the only operation that populates `messages` for the
selected conversation — it clears the flag and replaces `messages` with the
decoded fetched history. -/
theorem c4_select_keeps_messages (s : ChatState) (conv : Conversation)
    (fetched : List ApiMessage) :
    (selectConversation conv s).resumePending = true
    ∧ (selectConversation conv s).messages = s.messages
    ∧ (handleResume fetched (selectConversation conv s)).messages
        = formatMessages fetched
    ∧ (handleResume fetched (selectConversation conv s)).resumePending
        = false :=
  ⟨rfl, rfl, rfl, rfl⟩

/-- C5, counterexample to the claim as stated: with a send in flight for
`conv1`, switching the active conversation to `conv2` and then letting the
reply arrive does not discard it — the store still grows by the assistant
message even though the active conversation changed since the send
started. -/
theorem c5_counterexample :
    (selectConversation conv2 inFlightState).activeConversation ≠ some conv1
    ∧ (onSendSuccess (selectConversation conv2 inFlightState) usedReply).messages
        ≠ (selectConversation conv2 inFlightState).messages := by decide

/-- C5, amended: there is no stale-response guard — the success continuation
appends the decoded in-flight reply to the store unconditionally when it
arrives, even when the active conversation has been switched since the send
started. -/
theorem c5_reply_appended_unconditionally (s : ChatState)
    (newActive : Conversation) (resp : ApiMessage) :
    (onSendSuccess (selectConversation newActive s) resp).messages
      = s.messages ++ [aiMessageOf resp] := rfl

/-- C6: no two sends are concurrently in flight — while `loading` is true a
user send attempt is a no-op (the input and button are disabled), starting a
send raises `loading`, and only the success or failure (synthetic apology)
continuation lowers it again; `EnhancedChatInterface` enforces the same
guard inside the handler itself. -/
theorem c6_send_in_flight_blocks (lib : Nat) (now now2 : Nat)
    (s t u : ChatState) (resp : ApiMessage) (inp : List Char)
    (hs : s.loading = true)
    (ht1 : t.loading = false) (ht2 : trimList t.inputMessage ≠ []) :
    attemptSend (some lib) now s = s
    ∧ (attemptSend (some lib) now t).loading = true
    ∧ (onSendSuccess u resp).loading = false
    ∧ (onSendFailure now2 u).loading = false
    ∧ enhancedSendGuard inp true = true := by
  refine ⟨?_, ?_, rfl, rfl, ?_⟩
  · simp [attemptSend, hs]
  · simp [attemptSend, ht1, handleSendBegin, ht2]
  · simp [enhancedSendGuard]

theorem c6_send_in_flight_blocks_witness :
    attemptSend (some 3) 10 inFlightState = inFlightState
    ∧ (attemptSend (some 3) 10 helloState).loading = true
    ∧ (onSendSuccess historyState usedReply).loading = false
    ∧ (onSendFailure 11 historyState).loading = false
    ∧ enhancedSendGuard "hi".toList true = true :=
  c6_send_in_flight_blocks 3 10 11 inFlightState helloState historyState
    usedReply "hi".toList rfl rfl (by decide)

/-- C7: when a send fails, exactly one synthetic assistant message with the
fixed apology text is appended after the optimistically appended user
message (which is never rolled back), and a transient error toast is
surfaced. -/
theorem c7_failure_apology (lib now now2 : Nat) (s : ChatState)
    (h1 : s.loading = false) (h2 : trimList s.inputMessage ≠ []) :
    (onSendFailure now2 (attemptSend (some lib) now s)).messages
      = s.messages ++ [mkUserMsg now s.inputMessage, apologyMessage now2]
    ∧ (onSendFailure now2 (attemptSend (some lib) now s)).toasts
      = s.toasts ++ ["Failed to send message"]
    ∧ (apologyMessage now2).role = Role.assistant
    ∧ (apologyMessage now2).content = apologyText.toList := by
  refine ⟨?_, ?_, rfl, rfl⟩ <;>
    simp [attemptSend, h1, handleSendBegin, h2, onSendFailure]

theorem c7_failure_apology_witness :
    (onSendFailure 12 (attemptSend (some 3) 10 helloState)).messages
      = helloState.messages
        ++ [mkUserMsg 10 helloState.inputMessage, apologyMessage 12]
    ∧ (onSendFailure 12 (attemptSend (some 3) 10 helloState)).toasts
      = helloState.toasts ++ ["Failed to send message"]
    ∧ (apologyMessage 12).role = Role.assistant
    ∧ (apologyMessage 12).content = apologyText.toList :=
  c7_failure_apology 3 10 12 helloState rfl (by decide)

/-- C8, counterexample to the claim as stated: for the HTTP 500 response
with body `{"detail":"LLM unavailable"}` the surfaced failure is exactly the
string "LLM unavailable" — it contains no digit at all, so the numeric
status code is not included together with the message. -/
theorem c8_counterexample :
    handleApiResponse resp500 = .error "LLM unavailable"
    ∧ ∀ c ∈ "LLM unavailable".toList, c.isDigit = false :=
  ⟨rfl, by decide⟩

/-- C8, amended: for every non-success response the surfaced failure
carries the parsed `detail` field when present and non-empty, otherwise
falls back to the status line text (or a fixed fallback when that is empty
too); a body of any other shape (no parsable `detail`) degrades to the
status line text; the numeric status code is not part of the surfaced
failure — two failures differing only in status code surface the same
error. -/
theorem c8_error_message (r r2 : ApiResponse)
    (h : r.ok = false) (hok : r2.ok = false)
    (hst : r2.statusText = r.statusText) (hjd : r2.jsonDetail = r.jsonDetail) :
    (∀ d, r.jsonDetail = some d → d ≠ "" →
        handleApiResponse r = .error d)
    ∧ (r.jsonDetail = none → r.statusText ≠ "" →
        handleApiResponse r = .error r.statusText)
    ∧ handleApiResponse r2 = handleApiResponse r := by
  refine ⟨?_, ?_, ?_⟩
  · intro d hd hne
    simp [handleApiResponse, h, hd, jsOrElse, hne]
  · intro hn hne
    simp [handleApiResponse, h, hn, jsOrElse, hne]
  · simp [handleApiResponse, h, hok, hst, hjd]

theorem c8_error_message_witness :
    handleApiResponse resp500 = .error "LLM unavailable"
    ∧ handleApiResponse resp404 = handleApiResponse resp500 :=
  ⟨(c8_error_message resp500 resp404 rfl rfl rfl rfl).1
      "LLM unavailable" rfl (by decide),
   (c8_error_message resp500 resp404 rfl rfl rfl rfl).2.2⟩

/-- C9: on a successful delete, deleting the active conversation clears the
active reference and re-seeds the greeting (never a dangling reference),
deleting a non-active conversation leaves `activeConversation` and
`messages` unchanged, and in both cases the refreshed known-conversations
list is the previous one without the deleted entry. -/
theorem c9_delete_conversation (s : ChatState) (cid : Nat) :
    (s.activeConversation.any (fun c => c.id = cid) = true →
        (deleteConversationSuccess cid s).activeConversation = none
        ∧ (deleteConversationSuccess cid s).messages = [greetingMsg]
        ∧ (deleteConversationSuccess cid s).resumePending = false)
    ∧ (s.activeConversation.any (fun c => c.id = cid) = false →
        (deleteConversationSuccess cid s).activeConversation
            = s.activeConversation
        ∧ (deleteConversationSuccess cid s).messages = s.messages)
    ∧ (deleteConversationSuccess cid s).conversations
        = s.conversations.filter (fun c => c.id ≠ cid) := by
  refine ⟨fun h => ?_, fun h => ?_, ?_⟩
  · simp [deleteConversationSuccess, h, startNewConversation,
      activeConversationEffect]
  · simp [deleteConversationSuccess, h]
  · by_cases h : s.activeConversation.any (fun c => c.id = cid) = true
    · simp [deleteConversationSuccess, h, startNewConversation,
        activeConversationEffect]
    · simp only [Bool.not_eq_true] at h
      simp [deleteConversationSuccess, h]

theorem c9_delete_conversation_witness :
    ((deleteConversationSuccess 1 historyState).activeConversation = none
      ∧ (deleteConversationSuccess 1 historyState).messages = [greetingMsg]
      ∧ (deleteConversationSuccess 1 historyState).resumePending = false)
    ∧ ((deleteConversationSuccess 9 historyState).activeConversation
          = historyState.activeConversation
      ∧ (deleteConversationSuccess 9 historyState).messages
          = historyState.messages)
    ∧ (deleteConversationSuccess 1 historyState).conversations
        = historyState.conversations.filter (fun c => c.id ≠ 1) :=
  ⟨(c9_delete_conversation historyState 1).1 (by decide),
   (c9_delete_conversation historyState 9).2.1 (by decide),
   (c9_delete_conversation historyState 1).2.2⟩

/-- C10: when the raw content contains two (or more) reasoning blocks, only
the first is extracted — `reasoning` is the trimmed inner text of the first
pair, only the first pair is removed, and the later block remains verbatim
(markers included) inside `visibleContent`. -/
theorem c10_first_block_only (A I M I2 S : List Char)
    (hA : occursIn startMarker A = false)
    (hI : occursIn endMarker I = false) :
    decode (A ++ startMarker ++ I ++ endMarker
        ++ (M ++ startMarker ++ I2 ++ endMarker ++ S))
      = (trimList (A ++ (M ++ startMarker ++ I2 ++ endMarker ++ S)),
         some (trimList I))
    ∧ ∃ Pp Qp, (decode (A ++ startMarker ++ I ++ endMarker
        ++ (M ++ startMarker ++ I2 ++ endMarker ++ S))).1
        = Pp ++ ((startMarker ++ I2 ++ endMarker) ++ Qp) := by
  have heq := decode_block A I (M ++ startMarker ++ I2 ++ endMarker ++ S) hA hI
  refine ⟨heq, ?_⟩
  rw [heq]
  have hB1 : (startMarker ++ I2 ++ endMarker).head? = some '<' := by
    rw [show startMarker = '<' :: "reasoning>".toList from by decide]
    rfl
  have hB2 : (startMarker ++ I2 ++ endMarker).reverse.head? = some '>' := by
    rw [List.reverse_append,
      show endMarker.reverse = '>' :: "gninosaer/<".toList from by decide]
    rfl
  obtain ⟨Pp, Qp, hPQ⟩ := trimList_keeps_middle (A ++ M)
    (startMarker ++ I2 ++ endMarker) S '<' '>' hB1 (by decide) hB2 (by decide)
  refine ⟨Pp, Qp, ?_⟩
  rw [show A ++ (M ++ startMarker ++ I2 ++ endMarker ++ S)
      = (A ++ M) ++ ((startMarker ++ I2 ++ endMarker) ++ S) from by
    simp [List.append_assoc]]
  exact hPQ

theorem c10_first_block_only_witness :
    decode ("say ".toList ++ startMarker ++ " one ".toList ++ endMarker
        ++ (" mid ".toList ++ startMarker ++ " two ".toList ++ endMarker
            ++ " end".toList))
      = (trimList ("say ".toList ++ (" mid ".toList ++ startMarker
            ++ " two ".toList ++ endMarker ++ " end".toList)),
         some (trimList " one ".toList))
    ∧ ∃ Pp Qp, (decode ("say ".toList ++ startMarker ++ " one ".toList
        ++ endMarker ++ (" mid ".toList ++ startMarker ++ " two ".toList
            ++ endMarker ++ " end".toList))).1
        = Pp ++ ((startMarker ++ " two ".toList ++ endMarker) ++ Qp) :=
  c10_first_block_only "say ".toList " one ".toList " mid ".toList
    " two ".toList " end".toList (by decide) (by decide)
